import Mathlib

/-
  Verification of the GreenGuard live audio session (src/App.tsx, src/types.ts).

  The embedding models the session lifecycle refs and React state as an
  explicit record (AppState), the Gemini Live message callback (onmessage,
  src/App.tsx lines 121-188) as a pure transition returning the new state
  together with the externally visible effects (sources started/stopped,
  tool responses sent), and connect/disconnect/toggle (lines 47-67, 69-213,
  215-221) as transitions parameterized by the environment (API key
  presence, microphone acquisition outcome).  Audio decoding is modelled by
  an environment function from the opaque base64 payload to an optional
  duration (none = decodeAudioData throws).  Time and durations are
  rationals.  AudioBufferSourceNode objects are identified by Nat ids; the
  sourcesRef Set is modelled as a list of ids.
-/

/-- Connection state enum from src/types.ts lines 10-15. -/
inductive ConnectionState where
  | DISCONNECTED
  | CONNECTING
  | CONNECTED
  | ERROR
  deriving DecidableEq

/-- Arguments of a tool call (fc.args).  The code does not validate them, so
each of the three fields declared required by bookVisitTool (src/App.tsx
lines 10-22) may be absent. -/
structure ToolArgs where
  customerName : Option String
  address : Option String
  preferredTime : Option String
  deriving DecidableEq

/-- One element of message.toolCall.functionCalls (src/App.tsx line 169). -/
structure FunctionCall where
  id : String
  name : String
  args : ToolArgs
  deriving DecidableEq

/-- A sendToolResponse payload (src/App.tsx lines 177-183): id, name and the
result string of the response object. -/
structure ToolResponse where
  id : String
  name : String
  result : String
  deriving DecidableEq

/-- The parts of a LiveServerMessage the handler looks at: the optional
inline audio payload (serverContent.modelTurn.parts[0].inlineData.data), the
interrupted flag (serverContent.interrupted), and the list of function calls
(message.toolCall, empty list when absent). -/
structure LiveServerMessage where
  audioData : Option String
  interrupted : Bool
  functionCalls : List FunctionCall
  deriving DecidableEq

/-- The React state and mutable refs of the App component (src/App.tsx
lines 26-37).  Refs that hold nullable handles are modelled by Bool
(true = non-null); nextStartTimeRef holds the playback cursor; sourcesRef is
the active buffer set, as a list of source ids. -/
structure AppState where
  connectionState : ConnectionState
  isSpeaking : Bool
  lastLog : String
  bookedVisits : List ToolArgs
  sessionRef : Bool
  inputCtx : Bool
  outputCtx : Bool
  outputNode : Bool
  nextStartTime : Rat
  sources : List Nat
  deriving DecidableEq

/-- Effects emitted by one onmessage invocation: sources started (id and
scheduled start time), sources stopped, tool responses sent. -/
structure Effects where
  started : List (Nat × Rat)
  stopped : List Nat
  responses : List ToolResponse
  deriving DecidableEq

/-- JavaScript string interpolation of a possibly-undefined value. -/
def optStr : Option String → String
  | some x => x
  | none => "undefined"

/-- Audio-output part of onmessage (src/App.tsx lines 122-154): on a payload,
set isSpeaking, and when the output context and gain node are present, clamp
the cursor to max(cursor, now) (line 130), decode (lines 132-137), start the
source at the cursor (line 150), advance the cursor by the duration
(line 151) and add the source to the active set (line 152).  A decode
failure throws out of the handler: the returned Bool is false and the state
keeps the mutations already performed (isSpeaking, clamped cursor). -/
def handleAudio (decode : String → Option Rat) (now : Rat) (newId : Nat)
    (s : AppState) : Option String → AppState × List (Nat × Rat) × Bool
  | none => (s, [], true)
  | some data =>
    let s1 := { s with isSpeaking := true }
    if s1.outputCtx && s1.outputNode then
      let s2 := { s1 with nextStartTime := max s1.nextStartTime now }
      match decode data with
      | none => (s2, [], false)
      | some d =>
        let start := s2.nextStartTime
        ({ s2 with nextStartTime := start + d, sources := newId :: s2.sources },
          [(newId, start)], true)
    else (s1, [], true)

/-- Interruption part of onmessage (src/App.tsx lines 156-165): when the
interrupted flag is set, log, clear isSpeaking, stop every source in the
active set (the returned list; the try/catch at line 161 makes stopping a
finished source a no-op), clear the set and reset the cursor to 0. -/
def handleInterrupted (s : AppState) : Bool → AppState × List Nat
  | true =>
    ({ s with
        lastLog := "User interrupted model.", isSpeaking := false,
        sources := [], nextStartTime := 0 }, s.sources)
  | false => (s, [])

/-- Tool-call part of onmessage (src/App.tsx lines 167-187): iterate over the
function calls; a call named book_site_visit logs, appends its raw args to
the booking list and sends one success response carrying the call id; any
other name is skipped entirely (no response). -/
def handleToolCalls : AppState → List FunctionCall → AppState × List ToolResponse
  | s, [] => (s, [])
  | s, fc :: rest =>
    if fc.name == "book_site_visit" then
      let s1 := { s with
        lastLog := "Booking visit for " ++ optStr fc.args.customerName ++ "...",
        bookedVisits := s.bookedVisits ++ [fc.args] }
      let r := handleToolCalls s1 rest
      (r.1, { id := fc.id, name := fc.name,
              result := "Visit successfully scheduled." } :: r.2)
    else handleToolCalls s rest

/-- The onmessage callback (src/App.tsx lines 121-188), sequentially: audio,
then interruption, then tool calls.  The Bool is false when a decode failure
aborted the invocation before the interruption and tool-call sections. -/
def onmessage (decode : String → Option Rat) (now : Rat) (newId : Nat)
    (s : AppState) (m : LiveServerMessage) : AppState × Effects × Bool :=
  let ra := handleAudio decode now newId s m.audioData
  if ra.2.2 then
    let ri := handleInterrupted ra.1 m.interrupted
    let rt := handleToolCalls ri.1 m.functionCalls
    (rt.1, { started := ra.2.1, stopped := ri.2, responses := rt.2 }, true)
  else
    (ra.1, { started := ra.2.1, stopped := [], responses := [] }, false)

/-- A run of audio-only messages in arrival order: each chunk is a triple of
payload, clock value when its handler runs, and fresh source id.  Each chunk
is handled by its own onmessage invocation, so a decode failure in one chunk
does not stop the processing of later chunks. -/
def runChunks (decode : String → Option Rat) :
    AppState → List (String × Rat × Nat) → AppState × List (Nat × Rat)
  | s, [] => (s, [])
  | s, c :: rest =>
    let r := handleAudio decode c.2.1 c.2.2 s (some c.1)
    let r2 := runChunks decode r.1 rest
    (r2.1, r.2.1 ++ r2.2)

/-- Expected start times of a gapless schedule: cursor, cursor + d1,
cursor + d1 + d2, ... -/
def cumStarts (c : Rat) : List Rat → List Rat
  | [] => []
  | d :: ds => c :: cumStarts (c + d) ds

/-- Effects of handleDisconnect: which audio contexts were actually closed. -/
structure DiscEffects where
  closedInput : Bool
  closedOutput : Bool
  deriving DecidableEq

/-- handleDisconnect (src/App.tsx lines 47-67): drop the session ref if held;
close and null each audio context ref that is non-null; then set the state
to DISCONNECTED, clear isSpeaking and log. -/
def handleDisconnect (s : AppState) : AppState × DiscEffects :=
  let s1 := if s.sessionRef then { s with sessionRef := false } else s
  let p2 : AppState × Bool :=
    if s1.inputCtx then ({ s1 with inputCtx := false }, true) else (s1, false)
  let p3 : AppState × Bool :=
    if p2.1.outputCtx then ({ p2.1 with outputCtx := false }, true) else (p2.1, false)
  ({ p3.1 with
      connectionState := ConnectionState.DISCONNECTED,
      isSpeaking := false, lastLog := "Disconnected." },
    { closedInput := p2.2, closedOutput := p3.2 })

/-- Effects of handleConnect: whether alert fired, which resources were
created (audio contexts, microphone stream, live channel). -/
structure ConnectEffects where
  alerted : Bool
  inputCtxCreated : Bool
  outputCtxCreated : Bool
  micAcquired : Bool
  channelOpened : Bool
  deriving DecidableEq

/-- handleConnect (src/App.tsx lines 69-213).  hasApiKey models
process.env.API_KEY presence; micOk models whether getUserMedia succeeds.
Without a key: alert and return with nothing touched (lines 70-73).
Otherwise set CONNECTING and log (lines 75-76), create both audio contexts
and the gain node and store the refs (lines 82-91); if getUserMedia throws
(line 93) the catch block sets ERROR and logs (lines 208-212, message text
abstracted to a fixed string), leaving the created contexts in place;
otherwise open the live channel and store the session ref (lines 96-206).
The state stays CONNECTING: CONNECTED is only set later by the onopen
callback.  There is no check of the current connection state anywhere. -/
def handleConnect (hasApiKey micOk : Bool) (s : AppState) : AppState × ConnectEffects :=
  if hasApiKey = false then
    (s, { alerted := true, inputCtxCreated := false, outputCtxCreated := false,
          micAcquired := false, channelOpened := false })
  else
    let s1 := { s with
                connectionState := ConnectionState.CONNECTING,
                lastLog := "Connecting to Gemini..." }
    let s2 := { s1 with inputCtx := true, outputCtx := true, outputNode := true }
    if micOk then
      ({ s2 with sessionRef := true },
        { alerted := false, inputCtxCreated := true, outputCtxCreated := true,
          micAcquired := true, channelOpened := true })
    else
      ({ s2 with
          connectionState := ConnectionState.ERROR,
          lastLog := "Failed to connect." },
        { alerted := false, inputCtxCreated := true, outputCtxCreated := true,
          micAcquired := false, channelOpened := false })

/-- Which of the two handlers a toggleConnection invocation dispatched to,
with its effects. -/
inductive ToggleAction where
  | disconnected (e : DiscEffects)
  | connected (e : ConnectEffects)
  deriving DecidableEq

/-- toggleConnection (src/App.tsx lines 215-221): from CONNECTED or
CONNECTING call handleDisconnect, otherwise call handleConnect. -/
def toggleConnection (hasApiKey micOk : Bool) (s : AppState) : AppState × ToggleAction :=
  if s.connectionState = ConnectionState.CONNECTED
      ∨ s.connectionState = ConnectionState.CONNECTING then
    let r := handleDisconnect s
    (r.1, ToggleAction.disconnected r.2)
  else
    let r := handleConnect hasApiKey micOk s
    (r.1, ToggleAction.connected r.2)

/-
  Interleaved model of the async onmessage handler, for properties about
  chunks whose decode is still in flight when another event is processed.
  The onmessage callback is async and the Live API does not await it, so
  while a chunk is suspended at the await of decodeAudioData (src/App.tsx
  line 132), later callback invocations run.  A chunk event therefore splits
  into two atomic phases on the JS event loop: chunkArrive is the code up to
  the await (setIsSpeaking, cursor clamp at line 130, decode begun);
  decodeDone is the resumption (lines 139-152: read the live cursor, start
  the source there, advance the cursor, add the source to the active set).
  interrupt is the (synchronous) interruption block, lines 156-165, which
  stops and clears the active set and zeroes the cursor but does not touch
  in-flight decodes.
-/

/-- One atomic event-loop step visible to the playback scheduler. -/
inductive SchedEv where
  | chunkArrive (id : Nat) (d : Rat) (now : Rat)
  | decodeDone (id : Nat)
  | interrupt
  deriving DecidableEq

/-- Scheduler state for the interleaved model: playback cursor, speaking
flag, in-flight decodes (id and duration), active set, and logs of sources
started (with start time) and stopped. -/
structure SchedState where
  cursor : Rat
  speaking : Bool
  pending : List (Nat × Rat)
  sources : List Nat
  started : List (Nat × Rat)
  stopped : List Nat
  deriving DecidableEq

/-- Transition of the interleaved scheduler model.  decodeDone of an unknown
id is a no-op (that decode was never begun). -/
def schedStep (st : SchedState) : SchedEv → SchedState
  | SchedEv.chunkArrive i d now =>
    { st with
      speaking := true, cursor := max st.cursor now,
      pending := st.pending ++ [(i, d)] }
  | SchedEv.decodeDone i =>
    match st.pending.find? (fun p => p.1 == i) with
    | some pd =>
      { st with
        started := st.started ++ [(i, st.cursor)],
        cursor := st.cursor + pd.2,
        sources := st.sources ++ [i],
        pending := st.pending.filter (fun p => p.1 != i) }
    | none => st
  | SchedEv.interrupt =>
    { st with
      speaking := false, stopped := st.stopped ++ st.sources,
      sources := [], cursor := 0 }

/-- Run the interleaved scheduler over an event-loop schedule. -/
def runSched (st : SchedState) (evs : List SchedEv) : SchedState :=
  evs.foldl schedStep st

/-- Initial scheduler state (nextStartTimeRef initialized to 0, everything
else empty, src/App.tsx lines 36-37). -/
def schedInit : SchedState :=
  { cursor := 0, speaking := false, pending := [], sources := [],
    started := [], stopped := [] }

/-- Initial app state (src/App.tsx lines 26-37). -/
def appInit : AppState :=
  { connectionState := ConnectionState.DISCONNECTED, isSpeaking := false,
    lastLog := "Ready to start.", bookedVisits := [], sessionRef := false,
    inputCtx := false, outputCtx := false, outputNode := false,
    nextStartTime := 0, sources := [] }

/-- A state in an established session: connected, contexts live, some audio
already scheduled. -/
def appLive : AppState :=
  { connectionState := ConnectionState.CONNECTED, isSpeaking := true,
    lastLog := "Connected! Say hello.", bookedVisits := [], sessionRef := true,
    inputCtx := true, outputCtx := true, outputNode := true,
    nextStartTime := 2, sources := [0, 1] }

/-- A decode environment where every payload decodes, with duration 1. -/
def decodeOne : String → Option Rat := fun _ => some 1

/-- A decode environment for three concrete payloads, of durations
1/2, 3/10, 1/5 (spec scenario durations 0.5s, 0.3s, 0.2s). -/
def decodeEx : String → Option Rat := fun x =>
  if x = "a" then some (1 / 2)
  else if x = "b" then some (3 / 10)
  else if x = "c" then some (1 / 5)
  else none

/-- A decode environment where every payload fails to decode. -/
def decodeFail : String → Option Rat := fun _ => none

/-- A tool call whose name is not in the declared registry. -/
def mUnknownTool : LiveServerMessage :=
  { audioData := none, interrupted := false,
    functionCalls := [{
      id := "x1", name := "get_weather",
      args := { customerName := none, address := none, preferredTime := none } }] }

/-- Arguments of a book_site_visit call that are missing the required
address field. -/
def argsMissingAddress : ToolArgs :=
  { customerName := some "Jane", address := none,
    preferredTime := some "Friday 3pm" }

/-- A book_site_visit tool call missing the required address field. -/
def mMissingAddress : LiveServerMessage :=
  { audioData := none, interrupted := false,
    functionCalls := [{
      id := "abc", name := "book_site_visit",
      args := argsMissingAddress }] }

/-- A bare interruption message. -/
def mInterrupt : LiveServerMessage :=
  { audioData := none, interrupted := true, functionCalls := [] }

/-- A message carrying an audio chunk together with an interruption flag. -/
def mBadChunk : LiveServerMessage :=
  { audioData := some "zzz", interrupted := true, functionCalls := [] }

/-- An already-torn-down session state: refs null, state DISCONNECTED. -/
def appTorn : AppState :=
  { connectionState := ConnectionState.DISCONNECTED, isSpeaking := true,
    lastLog := "Error occurred. Please restart.", bookedVisits := [],
    sessionRef := false, inputCtx := false, outputCtx := false,
    outputNode := true, nextStartTime := 4, sources := [3] }

/-- A scheduler state with one decode in flight. -/
def stPend : SchedState :=
  { cursor := 7, speaking := true, pending := [(1, 2)], sources := [5],
    started := [(5, 3)], stopped := [] }

/-- Full characterization of the tool-call loop: the responses sent are, in
order, one success response per call named book_site_visit; the bookings
appended are exactly the raw args of those calls; the playback cursor and
active set are untouched. -/
theorem handleToolCalls_spec (s : AppState) (fcs : List FunctionCall) :
    (handleToolCalls s fcs).2
      = (fcs.filter (fun fc => fc.name == "book_site_visit")).map
          (fun fc => { id := fc.id, name := fc.name,
                       result := "Visit successfully scheduled." })
    ∧ (handleToolCalls s fcs).1.bookedVisits
      = s.bookedVisits
        ++ (fcs.filter (fun fc => fc.name == "book_site_visit")).map
            (fun fc => fc.args)
    ∧ (handleToolCalls s fcs).1.nextStartTime = s.nextStartTime
    ∧ (handleToolCalls s fcs).1.sources = s.sources := by
  induction fcs generalizing s with
  | nil => simp [handleToolCalls]
  | cons fc rest ih =>
    by_cases h : (fc.name == "book_site_visit") = true
    · obtain ⟨ih1, ih2, ih3, ih4⟩ := ih { s with
        lastLog := "Booking visit for " ++ optStr fc.args.customerName ++ "...",
        bookedVisits := s.bookedVisits ++ [fc.args] }
      simp [handleToolCalls, h, List.filter_cons, ih1, ih2, ih3, ih4,
        List.append_assoc]
    · simp only [Bool.not_eq_true] at h
      obtain ⟨ih1, ih2, ih3, ih4⟩ := ih s
      simp [handleToolCalls, h, List.filter_cons, ih1, ih2, ih3, ih4]

/-- C1: the claim states that every tool_call, known name or not, receives
exactly one matching-id tool_response.  Counterexample: a tool_call named
get_weather (unknown) receives no response at all, because the loop at
src/App.tsx lines 169-186 only handles the name book_site_visit and has no
else branch. -/
theorem c1_unknown_tool_counterexample :
    (onmessage decodeOne 0 0 appInit mUnknownTool).2.1.responses = []
    ∧ ((onmessage decodeOne 0 0 appInit mUnknownTool).2.1.responses).length ≠ 1 := by
  decide

/-- C1 (amended): every tool_call named book_site_visit receives exactly one
success tool_response carrying its id, regardless of argument validity; a
tool_call with any other name receives no response: the responses sent by
the handler are exactly one per call whose name is book_site_visit, in
order, each with that call's id. -/
theorem c1_amended_one_response_per_known_call (s : AppState)
    (fcs : List FunctionCall) :
    (handleToolCalls s fcs).2
      = (fcs.filter (fun fc => fc.name == "book_site_visit")).map
          (fun fc => { id := fc.id, name := fc.name,
                       result := "Visit successfully scheduled." }) :=
  (handleToolCalls_spec s fcs).1

/-- C2: the claim states that a book_site_visit call missing a required
field appends no booking and receives a failure response.  Counterexample:
the call with the address field absent appends its args to the booking list
and receives the success response, because the code performs no argument
validation. -/
theorem c2_missing_field_counterexample :
    (onmessage decodeOne 0 0 appInit mMissingAddress).1.bookedVisits
      = [argsMissingAddress]
    ∧ (onmessage decodeOne 0 0 appInit mMissingAddress).2.1.responses
      = [{ id := "abc", name := "book_site_visit",
           result := "Visit successfully scheduled." }]
    ∧ argsMissingAddress.address = none := by
  decide

/-- C2 (amended): every tool_call named book_site_visit appends its raw
arguments to the booking list and is answered with a success tool_response
carrying its id, whether or not customerName, address and preferredTime are
present; missing required fields are not validated and neither prevent the
booking nor produce a failure response. -/
theorem c2_amended_no_validation (s : AppState) (fcs : List FunctionCall) :
    (handleToolCalls s fcs).1.bookedVisits
      = s.bookedVisits
        ++ (fcs.filter (fun fc => fc.name == "book_site_visit")).map
            (fun fc => fc.args)
    ∧ (handleToolCalls s fcs).2
      = (fcs.filter (fun fc => fc.name == "book_site_visit")).map
          (fun fc => { id := fc.id, name := fc.name,
                       result := "Visit successfully scheduled." }) :=
  ⟨(handleToolCalls_spec s fcs).2.1, (handleToolCalls_spec s fcs).1⟩

/-- C4: the claim states the interrupted handler resets nextStartTime to
the current time at which the interruption is processed.  Counterexample:
processing an interruption at clock value 5 resets the cursor to 0, not 5
(src/App.tsx line 164 assigns the literal 0). -/
theorem c4_cursor_reset_counterexample :
    (onmessage decodeOne 5 9 appLive mInterrupt).1.nextStartTime = 0
    ∧ (0 : Rat) ≠ 5 := by
  decide

/-- C4 (amended): processing an interrupted event stops every buffer in the
active set, leaves the active set empty, and resets nextStartTime to 0
rather than to the interruption time; since a later chunk starts at
max(nextStartTime, now), the reset to 0 is observably equivalent to a reset
to the interruption time at the next scheduling point. -/
theorem c4_amended_interrupt_clears (s : AppState) :
    (handleInterrupted s true).2 = s.sources
    ∧ (handleInterrupted s true).1.sources = []
    ∧ (handleInterrupted s true).1.nextStartTime = 0 := by
  constructor
  · rfl
  · constructor <;> rfl

/-- C5: the claim states that invoking connect while CONNECTED is rejected
as a no-op with no second channel.  Counterexample: handleConnect invoked on
a CONNECTED state (API key present, microphone available) proceeds to
CONNECTING and opens a new channel, because handleConnect never inspects the
connection state (src/App.tsx lines 69-213 contain no such check). -/
theorem c5_connect_guard_counterexample :
    appLive.connectionState = ConnectionState.CONNECTED
    ∧ (handleConnect true true appLive).1.connectionState
        = ConnectionState.CONNECTING
    ∧ (handleConnect true true appLive).2.channelOpened = true := by
  decide

/-- C5 (amended): handleConnect itself performs no connection-state guard:
invoked while CONNECTED with an API key present it proceeds to CONNECTING
and opens a new channel.  The guard lives in toggleConnection, which from
CONNECTED or CONNECTING invokes handleDisconnect (creating no channel, no
audio context and no capture stream) and invokes handleConnect only from
DISCONNECTED or ERROR. -/
theorem c5_amended_guard_in_toggle (hasApiKey micOk : Bool) (s : AppState) :
    ((s.connectionState = ConnectionState.CONNECTED
        ∨ s.connectionState = ConnectionState.CONNECTING) →
      toggleConnection hasApiKey micOk s
        = ((handleDisconnect s).1, ToggleAction.disconnected (handleDisconnect s).2))
    ∧ ((s.connectionState = ConnectionState.DISCONNECTED
        ∨ s.connectionState = ConnectionState.ERROR) →
      toggleConnection hasApiKey micOk s
        = ((handleConnect hasApiKey micOk s).1,
            ToggleAction.connected (handleConnect hasApiKey micOk s).2))
    ∧ (s.connectionState = ConnectionState.CONNECTED →
        (handleConnect true true s).1.connectionState = ConnectionState.CONNECTING
        ∧ (handleConnect true true s).2.channelOpened = true) := by
  refine ⟨fun h => ?_, fun h => ?_, fun _ => ⟨rfl, rfl⟩⟩
  · simp [toggleConnection, h]
  · rcases h with h | h <;> simp [toggleConnection, h]

/-- C5 witness: at a CONNECTED state the toggle dispatches to disconnect. -/
theorem c5_amended_guard_in_toggle_witness :
    toggleConnection true true appLive
      = ((handleDisconnect appLive).1,
          ToggleAction.disconnected (handleDisconnect appLive).2) :=
  (c5_amended_guard_in_toggle true true appLive).1 (Or.inl rfl)

/-- C6: handleDisconnect on an already-torn-down session (session ref and
both context refs null, state DISCONNECTED) closes nothing, only forces the
idempotent fields (isSpeaking false, the Disconnected log), and a repeated
invocation returns exactly the same state and effects as a single one. -/
theorem c6_disconnect_idempotent (s : AppState)
    (hs : s.sessionRef = false) (hi : s.inputCtx = false)
    (ho : s.outputCtx = false)
    (hc : s.connectionState = ConnectionState.DISCONNECTED) :
    (handleDisconnect s).2 = { closedInput := false, closedOutput := false }
    ∧ (handleDisconnect s).1
        = { s with isSpeaking := false, lastLog := "Disconnected." }
    ∧ handleDisconnect (handleDisconnect s).1 = handleDisconnect s := by
  obtain ⟨c1, c2, c3, c4, c5, c6, c7, c8, c9, c10⟩ := s
  simp only at hs hi ho hc
  subst hs hi ho hc
  exact ⟨rfl, rfl, rfl⟩

/-- C6 witness at a concrete already-torn-down state. -/
theorem c6_disconnect_idempotent_witness :
    appTorn.sessionRef = false ∧ appTorn.inputCtx = false
    ∧ appTorn.outputCtx = false
    ∧ appTorn.connectionState = ConnectionState.DISCONNECTED
    ∧ ((handleDisconnect appTorn).2
        = { closedInput := false, closedOutput := false }
      ∧ (handleDisconnect appTorn).1
          = { appTorn with isSpeaking := false, lastLog := "Disconnected." }
      ∧ handleDisconnect (handleDisconnect appTorn).1 = handleDisconnect appTorn) :=
  ⟨rfl, rfl, rfl, rfl, c6_disconnect_idempotent appTorn rfl rfl rfl rfl⟩

/-- C8: the claim states that a chunk whose decode is in flight when an
interrupted event is observed is discarded and never scheduled, and that
start order always equals arrival order.  Counterexamples on the interleaved
model: chunk 1 arrives and begins decoding, the interruption is processed,
then the decode completes and the chunk is nevertheless scheduled (at the
reset cursor 0); and two chunks whose decodes complete in reverse order are
scheduled in decode-completion order 2, 1 rather than arrival order 1, 2. -/
theorem c8_interrupt_race_counterexample :
    (runSched schedInit
      [SchedEv.chunkArrive 1 (1 / 2) 0, SchedEv.interrupt,
        SchedEv.decodeDone 1]).started = [(1, 0)]
    ∧ (runSched schedInit
        [SchedEv.chunkArrive 1 (1 / 2) 0, SchedEv.chunkArrive 2 (3 / 10) 0,
          SchedEv.decodeDone 2, SchedEv.decodeDone 1]).started.map Prod.fst
      = [2, 1] := by
  constructor
  · simp [runSched, schedStep, schedInit, List.find?]
  · simp [runSched, schedStep, schedInit, List.find?]

/-- C8 (amended): a chunk whose decode is in flight when an interrupted
event is processed is not discarded: when its decode completes it is
scheduled at the post-reset cursor (0) and added to the active set; and in
general a pending chunk is scheduled at whatever the cursor is when its
decode completes, so start order follows decode-completion order rather
than arrival order. -/
theorem c8_amended_pending_chunk_survives_interrupt (st : SchedState)
    (i : Nat) (d : Rat)
    (h : st.pending.find? (fun p => p.1 == i) = some (i, d)) :
    (schedStep (schedStep st SchedEv.interrupt) (SchedEv.decodeDone i)).started
      = st.started ++ [(i, 0)]
    ∧ i ∈ (schedStep (schedStep st SchedEv.interrupt) (SchedEv.decodeDone i)).sources
    ∧ (schedStep st (SchedEv.decodeDone i)).started
      = st.started ++ [(i, st.cursor)] := by
  refine ⟨?_, ?_, ?_⟩ <;> simp [schedStep, h]

/-- C8 witness at a concrete scheduler state with one in-flight decode. -/
theorem c8_amended_pending_chunk_survives_interrupt_witness :
    stPend.pending.find? (fun p => p.1 == 1) = some (1, 2)
    ∧ ((schedStep (schedStep stPend SchedEv.interrupt)
          (SchedEv.decodeDone 1)).started = stPend.started ++ [(1, 0)]
      ∧ 1 ∈ (schedStep (schedStep stPend SchedEv.interrupt)
          (SchedEv.decodeDone 1)).sources
      ∧ (schedStep stPend (SchedEv.decodeDone 1)).started
        = stPend.started ++ [(1, stPend.cursor)]) :=
  ⟨by decide, c8_amended_pending_chunk_survives_interrupt stPend 1 2 (by decide)⟩

/-- C10: if the API key is absent, handleConnect returns right after the
alert: the state (in particular a DISCONNECTED connection state) is
untouched, and no channel, audio context or microphone stream is created. -/
theorem c10_missing_key_early_return (micOk : Bool) (s : AppState)
    (hc : s.connectionState = ConnectionState.DISCONNECTED) :
    handleConnect false micOk s
      = (s, { alerted := true, inputCtxCreated := false,
              outputCtxCreated := false, micAcquired := false,
              channelOpened := false })
    ∧ (handleConnect false micOk s).1.connectionState
        = ConnectionState.DISCONNECTED := by
  exact ⟨rfl, hc⟩

/-- C10 witness at the initial state. -/
theorem c10_missing_key_early_return_witness :
    appInit.connectionState = ConnectionState.DISCONNECTED
    ∧ (handleConnect false true appInit
        = (appInit, { alerted := true, inputCtxCreated := false,
                      outputCtxCreated := false, micAcquired := false,
                      channelOpened := false })
      ∧ (handleConnect false true appInit).1.connectionState
          = ConnectionState.DISCONNECTED) :=
  ⟨rfl, c10_missing_key_early_return true appInit rfl⟩

/-- C7: the claim states that a decode failure is reported on the
user-visible status surface and that the rest of processing continues.
Counterexample: a message carrying an undecodable chunk together with an
interruption flag leaves lastLog untouched (no failure is ever reported:
there is no try/catch around the await at src/App.tsx line 132), and the
interruption section of that same message is skipped: the active set is
not cleared and not stopped. -/
theorem c7_decode_failure_counterexample :
    mBadChunk.interrupted = true
    ∧ (onmessage decodeFail 3 7 appLive mBadChunk).1.lastLog
      = "Connected! Say hello."
    ∧ appLive.lastLog = "Connected! Say hello."
    ∧ (onmessage decodeFail 3 7 appLive mBadChunk).1.sources = [0, 1]
    ∧ (onmessage decodeFail 3 7 appLive mBadChunk).2.1.stopped = []
    ∧ (onmessage decodeFail 3 7 appLive mBadChunk).2.2 = false := by
  decide

/-- C7 (amended): a chunk whose decode fails leaves the cursor clamped to
max(nextStartTime, now) without advancing it (the zero-duration effect on
the cursor) and schedules nothing, and chunks arriving in later messages
are processed normally; but the failure is not reported on the status
surface (lastLog is unchanged) and the remainder of that same message's
handling - the interruption and tool-call sections - is skipped, because
the rejected decode promise aborts the async handler. -/
theorem c7_amended_decode_failure (decode : String → Option Rat)
    (now : Rat) (newId : Nat) (s : AppState) (m : LiveServerMessage)
    (data : String) (ha : m.audioData = some data)
    (hd : decode data = none) (hctx : s.outputCtx = true)
    (hnode : s.outputNode = true) :
    onmessage decode now newId s m
      = ({ s with
            isSpeaking := true,
            nextStartTime := max s.nextStartTime now },
          { started := [], stopped := [], responses := [] }, false)
    ∧ ∀ (rest : List (String × Rat × Nat)) (cid : Nat),
        runChunks decode s ((data, now, cid) :: rest)
          = runChunks decode
              { s with
                isSpeaking := true,
                nextStartTime := max s.nextStartTime now } rest := by
  constructor
  · simp [onmessage, handleAudio, ha, hd, hctx, hnode]
  · intro rest cid
    simp [runChunks, handleAudio, hd, hctx, hnode]

/-- C7 witness: the amended decode-failure behavior at a concrete state and
message. -/
theorem c7_amended_decode_failure_witness :
    mBadChunk.audioData = some "zzz"
    ∧ decodeFail "zzz" = none
    ∧ appLive.outputCtx = true
    ∧ appLive.outputNode = true
    ∧ (onmessage decodeFail 3 7 appLive mBadChunk
        = ({ appLive with
              isSpeaking := true,
              nextStartTime := max appLive.nextStartTime 3 },
            { started := [], stopped := [], responses := [] }, false)
      ∧ ∀ (rest : List (String × Rat × Nat)) (cid : Nat),
          runChunks decodeFail appLive (("zzz", 3, cid) :: rest)
            = runChunks decodeFail
                { appLive with
                  isSpeaking := true,
                  nextStartTime := max appLive.nextStartTime 3 } rest) :=
  ⟨rfl, rfl, rfl, rfl,
    c7_amended_decode_failure decodeFail 3 7 appLive mBadChunk "zzz"
      rfl rfl rfl rfl⟩

/-- The playback cursor never decreases across the audio section of the
handler, provided the decode environment only produces nonnegative
durations. -/
theorem handleAudio_cursor_mono (decode : String → Option Rat) (now : Rat)
    (newId : Nat) (s : AppState) (ao : Option String)
    (hd : ∀ data d, decode data = some d → 0 ≤ d) :
    s.nextStartTime ≤ (handleAudio decode now newId s ao).1.nextStartTime := by
  cases ao with
  | none => exact le_refl _
  | some data =>
    by_cases hc : ({ s with isSpeaking := true } : AppState).outputCtx
        && ({ s with isSpeaking := true } : AppState).outputNode
    · cases hdec : decode data with
      | none =>
        simp [handleAudio, hc, hdec]
      | some d =>
        have h0 : 0 ≤ d := hd data d hdec
        simp only [handleAudio, hc, hdec, if_true]
        calc s.nextStartTime ≤ max s.nextStartTime now := le_max_left _ _
          _ ≤ max s.nextStartTime now + d := le_add_of_nonneg_right h0
    · simp [handleAudio, hc]

/-- C9: across every operation of the scheduler other than the interruption
reset, the cursor is monotonically nondecreasing: a full onmessage
invocation whose message does not carry the interrupted flag never
decreases nextStartTime (audio processing takes a max with the clock and
adds a nonnegative duration; tool-call processing leaves the cursor
untouched). -/
theorem c9_cursor_monotone (decode : String → Option Rat) (now : Rat)
    (newId : Nat) (s : AppState) (m : LiveServerMessage)
    (hd : ∀ data d, decode data = some d → 0 ≤ d)
    (hni : m.interrupted = false) :
    s.nextStartTime ≤ (onmessage decode now newId s m).1.nextStartTime := by
  have haud := handleAudio_cursor_mono decode now newId s m.audioData hd
  unfold onmessage
  by_cases hok : (handleAudio decode now newId s m.audioData).2.2
  · have htool := (handleToolCalls_spec
      (handleInterrupted (handleAudio decode now newId s m.audioData).1
        m.interrupted).1 m.functionCalls).2.2.1
    simp only [hok, if_true]
    rw [htool, hni]
    simpa [handleInterrupted] using haud
  · simp only [hok, if_false]
    exact haud

/-- C9 witness: a non-interrupting audio message at a concrete state does
not decrease the cursor. -/
theorem c9_cursor_monotone_witness :
    (∀ data d, decodeOne data = some d → 0 ≤ d)
    ∧ ({ audioData := some "x", interrupted := false,
          functionCalls := [] } : LiveServerMessage).interrupted = false
    ∧ appLive.nextStartTime
      ≤ (onmessage decodeOne 0 5 appLive
          { audioData := some "x", interrupted := false,
            functionCalls := [] }).1.nextStartTime := by
  have hd : ∀ data d, decodeOne data = some d → 0 ≤ d := by
    intro data d h
    simp only [decodeOne, Option.some.injEq] at h
    rw [← h]
    norm_num
  exact ⟨hd, rfl,
    c9_cursor_monotone decodeOne 0 5 appLive
      { audioData := some "x", interrupted := false, functionCalls := [] }
      hd rfl⟩

/-- Characterization of a successful audio step: is-speaking set, the start
slot reserved at max(cursor, now), the cursor advanced by the duration, the
source added to the active set, and the start effect emitted. -/
theorem handleAudio_some (decode : String → Option Rat) (now : Rat)
    (newId : Nat) (s : AppState) (data : String) (d : Rat)
    (hctx : s.outputCtx = true) (hnode : s.outputNode = true)
    (hd : decode data = some d) :
    handleAudio decode now newId s (some data)
      = ({ s with
            isSpeaking := true,
            nextStartTime := max s.nextStartTime now + d,
            sources := newId :: s.sources },
          [(newId, max s.nextStartTime now)], true) := by
  simp [handleAudio, hctx, hnode, hd]

/-- cumStarts produces one start per duration. -/
theorem cumStarts_length (c : Rat) (ds : List Rat) :
    (cumStarts c ds).length = ds.length := by
  induction ds generalizing c with
  | nil => rfl
  | cons d ds ih => simp [cumStarts, ih]

/-- The k-th entry of cumStarts is the base plus the sum of the first k
durations. -/
theorem cumStarts_get (ds : List Rat) :
    ∀ (c : Rat) (k : Nat) (hk : k < (cumStarts c ds).length),
      (cumStarts c ds).get ⟨k, hk⟩ = c + (ds.take k).sum := by
  induction ds with
  | nil =>
    intro c k hk
    simp [cumStarts] at hk
  | cons d ds ih =>
    intro c k hk
    cases k with
    | zero => simp [cumStarts]
    | succ k =>
      have hk2 : k < (cumStarts (c + d) ds).length := by
        simpa [cumStarts] using hk
      have h := ih (c + d) k hk2
      rw [List.get_eq_getElem] at h
      simp [cumStarts, h, add_assoc]

/-- The aligned run: when every chunk of the list arrives no later than the
cursor value reserved for it, the run schedules back-to-back starts
beginning at the initial cursor and ends with the cursor advanced by the
total duration.  The output-context refs are untouched by audio steps. -/
theorem runChunks_aligned (decode : String → Option Rat)
    {chunks : List (String × Rat × Nat)} {durs : List Rat}
    (hall : List.Forall₂ (fun c d => decode c.1 = some d ∧ 0 ≤ d) chunks durs) :
    ∀ s : AppState, s.outputCtx = true → s.outputNode = true →
      (∀ k, (hk : k < chunks.length) →
        (chunks.get ⟨k, hk⟩).2.1 ≤ s.nextStartTime + (durs.take k).sum) →
      (runChunks decode s chunks).2.map Prod.snd = cumStarts s.nextStartTime durs
        ∧ (runChunks decode s chunks).1.nextStartTime = s.nextStartTime + durs.sum
        ∧ (runChunks decode s chunks).2.length = chunks.length := by
  induction hall with
  | nil =>
    intro s _ _ _
    simp [runChunks, cumStarts]
  | @cons c d cs ds hcd hrest ih =>
    intro s hctx hnode hnow
    obtain ⟨hdec, hdnn⟩ := hcd
    have h0 : c.2.1 ≤ s.nextStartTime := by
      have h := hnow 0 (by simp)
      simpa using h
    have hmax : max s.nextStartTime c.2.1 = s.nextStartTime := max_eq_left h0
    have hstep := handleAudio_some decode c.2.1 c.2.2 s c.1 d hctx hnode hdec
    rw [hmax] at hstep
    set s1 : AppState := { s with
      isSpeaking := true,
      nextStartTime := s.nextStartTime + d,
      sources := c.2.2 :: s.sources } with hs1
    have hnow1 : ∀ k, (hk : k < cs.length) →
        (cs.get ⟨k, hk⟩).2.1 ≤ s1.nextStartTime + (ds.take k).sum := by
      intro k hk
      have h := hnow (k + 1) (by simpa using Nat.succ_lt_succ hk)
      have hget : ((c :: cs).get ⟨k + 1, by simpa using Nat.succ_lt_succ hk⟩)
          = cs.get ⟨k, hk⟩ := rfl
      rw [hget] at h
      calc (cs.get ⟨k, hk⟩).2.1
          ≤ s.nextStartTime + ((d :: ds).take (k + 1)).sum := h
        _ = s1.nextStartTime + (ds.take k).sum := by
            simp [hs1, List.take_succ_cons, add_assoc]
    obtain ⟨ih1, ih2, ih3⟩ := ih s1 hctx hnode hnow1
    have hrun : runChunks decode s (c :: cs)
        = ((runChunks decode s1 cs).1,
            (c.2.2, s.nextStartTime) :: (runChunks decode s1 cs).2) := by
      simp [runChunks, hstep, hs1]
    rw [hrun]
    refine ⟨?_, ?_, ?_⟩
    · simpa [cumStarts, hs1] using ih1
    · rw [ih2]
      simp [hs1, List.sum_cons, add_assoc]
    · simpa using ih3

/-- C3: for a sequence of chunks processed in arrival order with no
interruption, whose first chunk reserves its slot at
max(nextStartTime, now) and whose later chunks each arrive no later than
the cursor value already reserved for them, the scheduled start of chunk k
is the first start plus the sum of the first k - 1 durations, and the final
cursor is the first start plus the sum of all durations: gapless,
non-overlapping playback. -/
theorem c3_gapless_schedule (decode : String → Option Rat) (s : AppState)
    (data1 : String) (t1 : Rat) (id1 : Nat)
    (rest : List (String × Rat × Nat)) (d1 : Rat) (durs : List Rat)
    (hctx : s.outputCtx = true) (hnode : s.outputNode = true)
    (hd1 : decode data1 = some d1) (hd1nn : 0 ≤ d1)
    (hall : List.Forall₂ (fun c d => decode c.1 = some d ∧ 0 ≤ d) rest durs)
    (hnow : ∀ k, (hk : k < rest.length) →
      (rest.get ⟨k, hk⟩).2.1
        ≤ max s.nextStartTime t1 + ((d1 :: durs).take (k + 1)).sum) :
    (runChunks decode s ((data1, t1, id1) :: rest)).2.length
      = rest.length + 1
    ∧ (∀ k, (hk : k < (runChunks decode s ((data1, t1, id1) :: rest)).2.length) →
        ((runChunks decode s ((data1, t1, id1) :: rest)).2.get ⟨k, hk⟩).2
          = max s.nextStartTime t1 + ((d1 :: durs).take k).sum)
    ∧ (runChunks decode s ((data1, t1, id1) :: rest)).1.nextStartTime
      = max s.nextStartTime t1 + (d1 :: durs).sum := by
  have hstep := handleAudio_some decode t1 id1 s data1 d1 hctx hnode hd1
  set start1 : Rat := max s.nextStartTime t1 with hstart1
  set s1 : AppState := { s with
    isSpeaking := true,
    nextStartTime := start1 + d1,
    sources := id1 :: s.sources } with hs1
  have hnow1 : ∀ k, (hk : k < rest.length) →
      (rest.get ⟨k, hk⟩).2.1 ≤ s1.nextStartTime + (durs.take k).sum := by
    intro k hk
    have h := hnow k hk
    calc (rest.get ⟨k, hk⟩).2.1
        ≤ start1 + ((d1 :: durs).take (k + 1)).sum := h
      _ = s1.nextStartTime + (durs.take k).sum := by
          simp [hs1, List.take_succ_cons, add_assoc]
  obtain ⟨ih1, ih2, ih3⟩ := runChunks_aligned decode hall s1 hctx hnode hnow1
  have hrun : runChunks decode s ((data1, t1, id1) :: rest)
      = ((runChunks decode s1 rest).1,
          (id1, start1) :: (runChunks decode s1 rest).2) := by
    simp [runChunks, hstep, hs1]
  rw [hrun]
  have hmap : ((id1, start1) :: (runChunks decode s1 rest).2).map Prod.snd
      = cumStarts start1 (d1 :: durs) := by
    simpa [cumStarts, hs1] using ih1
  refine ⟨by simpa using ih3, ?_, ?_⟩
  · intro k hk
    have hk2 : k < (((id1, start1) :: (runChunks decode s1 rest).2).map
        Prod.snd).length := by
      simpa using hk
    have hk3 : k < (cumStarts start1 (d1 :: durs)).length := by
      rw [← hmap]
      exact hk2
    calc ((((runChunks decode s1 rest).1,
            (id1, start1) :: (runChunks decode s1 rest).2).2).get ⟨k, hk⟩).2
        = (((id1, start1) :: (runChunks decode s1 rest).2).map Prod.snd)[k] := by
          rw [List.getElem_map]
          rfl
      _ = (cumStarts start1 (d1 :: durs))[k] := by
          simp only [hmap]
      _ = start1 + ((d1 :: durs).take k).sum := by
          have hcs := cumStarts_get (d1 :: durs) start1 k hk3
          rw [List.get_eq_getElem] at hcs
          exact hcs
  · rw [ih2]
    simp [hs1, List.sum_cons, add_assoc]

/-- C3 witness: three chunks of durations 1/2, 3/10, 1/5 arriving
back-to-back at a live session state. -/
theorem c3_gapless_schedule_witness :
    appLive.outputCtx = true
    ∧ appLive.outputNode = true
    ∧ decodeEx "a" = some (1 / 2)
    ∧ (0 : Rat) ≤ 1 / 2
    ∧ List.Forall₂ (fun c d => decodeEx c.1 = some d ∧ 0 ≤ d)
        [("b", (0 : Rat), 11), ("c", (0 : Rat), 12)] [3 / 10, 1 / 5]
    ∧ (∀ k, (hk : k < ([("b", (0 : Rat), 11), ("c", (0 : Rat), 12)]
          : List (String × Rat × Nat)).length) →
        (([("b", (0 : Rat), 11), ("c", (0 : Rat), 12)]
          : List (String × Rat × Nat)).get ⟨k, hk⟩).2.1
          ≤ max appLive.nextStartTime 0
            + (((1 / 2 : Rat) :: [3 / 10, 1 / 5]).take (k + 1)).sum)
    ∧ ((runChunks decodeEx appLive
          (("a", 0, 10) :: [("b", (0 : Rat), 11), ("c", (0 : Rat), 12)])).2.length
        = ([("b", (0 : Rat), 11), ("c", (0 : Rat), 12)]
            : List (String × Rat × Nat)).length + 1
      ∧ (∀ k, (hk : k < (runChunks decodeEx appLive
            (("a", 0, 10) :: [("b", (0 : Rat), 11), ("c", (0 : Rat), 12)])).2.length) →
          ((runChunks decodeEx appLive
            (("a", 0, 10) :: [("b", (0 : Rat), 11), ("c", (0 : Rat), 12)])).2.get
              ⟨k, hk⟩).2
            = max appLive.nextStartTime 0
              + (((1 / 2 : Rat) :: [3 / 10, 1 / 5]).take k).sum)
      ∧ (runChunks decodeEx appLive
            (("a", 0, 10) :: [("b", (0 : Rat), 11), ("c", (0 : Rat), 12)])).1.nextStartTime
          = max appLive.nextStartTime 0
            + ((1 / 2 : Rat) :: [3 / 10, 1 / 5]).sum) := by
  have hall : List.Forall₂ (fun c d => decodeEx c.1 = some d ∧ 0 ≤ d)
      [("b", (0 : Rat), 11), ("c", (0 : Rat), 12)] [3 / 10, 1 / 5] :=
    List.Forall₂.cons ⟨rfl, by norm_num⟩
      (List.Forall₂.cons ⟨rfl, by norm_num⟩ List.Forall₂.nil)
  have hnow : ∀ k, (hk : k < ([("b", (0 : Rat), 11), ("c", (0 : Rat), 12)]
        : List (String × Rat × Nat)).length) →
      (([("b", (0 : Rat), 11), ("c", (0 : Rat), 12)]
        : List (String × Rat × Nat)).get ⟨k, hk⟩).2.1
        ≤ max appLive.nextStartTime 0
          + (((1 / 2 : Rat) :: [3 / 10, 1 / 5]).take (k + 1)).sum := by
    intro k hk
    have hk2 : k < 2 := by simpa using hk
    have hbase : (0 : Rat) ≤ max appLive.nextStartTime 0 := le_max_right _ _
    interval_cases k <;> simp [List.take] <;> positivity
  exact ⟨rfl, rfl, rfl, by norm_num, hall, hnow,
    c3_gapless_schedule decodeEx appLive "a" 0 10
      [("b", (0 : Rat), 11), ("c", (0 : Rat), 12)] (1 / 2) [3 / 10, 1 / 5]
      rfl rfl rfl (by norm_num) hall hnow⟩
